import Mathlib

/-!
Verification of the wellness analytics engine: shallow embedding of the
analytics computation engine of the `wellthread-oauth` repository and
proofs about it.

Embedded source functions (names kept from the source):

* `extractNumericValue`, `groupDataByDate`, `calculateCorrelations`,
  `calculateAverageValue`, `calculatePearsonCorrelation`,
  `calculateGoalProgress` — from the analytics route of the unnamed
  source file (`src/unnamed/part_001`);
* `calculateTrends` — from `src/app/api/wellness/analytics/route.ts`;
* `calculateSimpleTrend` — from `src/app/api/wellness/dashboard/route.ts`.

Modelling conventions, used consistently below:

* JavaScript numbers are modelled as exact rationals (`ℚ`).  The record
  payloads come from JSON columns of the data store, and JSON numbers are
  finite, so no payload can hold `NaN` or `Infinity`.  Where the code
  itself can *produce* `Infinity`/`NaN` (division by an elapsed-day count
  of zero in `calculateGoalProgress`) the result type `JNum` models these
  special values explicitly.
* JavaScript truthiness (`if (x)`) is modelled by `JSVal.truthy`.
* A JS stable comparator sort (`Array.prototype.sort`) is modelled by the
  structurally recursive stable insertion sort `jsSort`; for a total
  preorder the stable sorted permutation is unique, so this is faithful.
* The real number returned by `calculatePearsonCorrelation` is
  `num / sqrt dsq`; the function is embedded as the pair
  `PearsonRep` of the numerator and the radicand of the denominator
  (both exact rationals), and `rval` interprets the pair as the real
  coefficient.  All comparisons the source performs on the coefficient
  (`|r| > 0.3`, `|r| > 0.7`, `r > 0`, rounding to 2 decimals) are
  implemented as exact computable operations on the pair; `absGT_spec`
  proves the main one equivalent to the comparison on the real value.
-/

namespace WellThread

/-- JSON runtime values, the type of record payloads (`entry.data`).
JSON arrays are represented as objects keyed by their decimal indices,
which is how JavaScript property lookup treats them; no probed field
name is a decimal index, so this is faithful for the engine. -/
inductive JSVal where
  | null : JSVal
  | bool (b : Bool) : JSVal
  | num (q : ℚ) : JSVal
  | str (s : String) : JSVal
  | obj (fields : List (String × JSVal)) : JSVal

/-- JavaScript truthiness of a `JSVal` (`if (v)`).  JSON numbers are
finite, so the only falsy number is `0`. -/
def JSVal.truthy : JSVal → Bool
  | .null => false
  | .bool b => b
  | .num q => q != 0
  | .str s => s != ""
  | .obj _ => true

/-- Property lookup `fields[k]` on a JS object (represented as its
key-value list in insertion order), `none` = `undefined`. -/
def jsGet (fields : List (String × β)) (k : String) : Option β :=
  (fields.find? (fun p => p.1 == k)).map Prod.snd

/-- Property write `data[k] = v` on a JS object: replace in place when
the key exists, append otherwise (JS objects keep insertion order). -/
def jsSet (k : String) (v : β) : List (String × β) → List (String × β)
  | [] => [(k, v)]
  | (k', v') :: rest => if k' == k then (k, v) :: rest else (k', v') :: jsSet k v rest

/-- The fixed probe order of `extractNumericValue`
(`const numericFields = [...]` in the source). -/
def numericFields : List String :=
  ["value", "level", "duration", "quality", "severity", "systolic", "diastolic"]

/-- Record normalizer `extractNumericValue(data)` from the source: a
bare number is returned as-is; an object is probed along
`numericFields`, and a field is accepted only when
`data[field] && typeof data[field] === "number"`, i.e. when it holds a
*truthy* number (so the number `0` is skipped like an absent field);
everything else yields `none` (returned as `null` in the source). -/
def extractNumericValue (data : JSVal) : Option ℚ :=
  match data with
  | .num q => some q
  | .obj fields =>
      numericFields.findSome? (fun field =>
        match jsGet fields field with
        | some (.num q) => if q != 0 then some q else none
        | _ => none)
  | _ => none

/-- One row of the `health_data` table, with the columns the embedded
functions read.  `created_at` is the parsed timestamp in milliseconds;
`date` is the ISO date string whose calendar-day part is everything
before the first `T`; `value` is the numeric `value` column (`none`
when null or absent); `data` is the JSON payload column and
`typed_data` the legacy `<data_type>_data` column (`JSVal.null` when
absent — absent and JSON-null behave identically in the engine). -/
structure HealthRecord where
  created_at : ℤ
  date : String
  data_type : String
  data : JSVal
  typed_data : JSVal
  value : Option ℚ

/-- Day key `d.date.split("T")[0]` of a record: the part of the ISO
string before the first letter T (the whole string when there is none). -/
def dayKey (s : String) : String :=
  String.mk (s.data.takeWhile (fun c => c ≠ 'T'))

/-- Stable insertion step: `a` goes after every element strictly before
it under the comparator preorder `le`, and before everything else. -/
def stableInsert (le : α → α → Bool) (a : α) : List α → List α
  | [] => [a]
  | b :: bs => if le b a && !(le a b) then b :: stableInsert le a bs else a :: b :: bs

/-- Stable sort by a Boolean preorder: the model of
`Array.prototype.sort` with a numeric comparator (specified stable).
For a total preorder the stable sorted permutation is unique, so any
stable sorting algorithm — this insertion sort or the native sort of
the runtime — produces the same list. -/
def jsSort (le : α → α → Bool) : List α → List α
  | [] => []
  | a :: as => stableInsert le a (jsSort le as)

/-- Result object of `calculateTrends`.  The source returns
`{trend, change}` for an empty series and
`{trend, change, firstPeriod, secondPeriod}` otherwise; an absent or
NaN period average (a NaN arises in JS as `0/0` when a half is empty)
is modelled as `none`. -/
structure TrendOut where
  trend : String
  change : ℚ
  firstPeriod : Option ℚ
  secondPeriod : Option ℚ
deriving DecidableEq

/-- Fold `reduce((sum, item) => sum + (item.value || 0), 0)` from the
two trend functions: a missing (or null) `value` contributes `0`. -/
def sumValues (l : List HealthRecord) : ℚ :=
  l.foldl (fun sum item => sum + item.value.getD 0) 0

/-- Mean of one half, `reduce(...) / half.length`.  In JS the empty
half gives `0 / 0 = NaN`, modelled as `none`; both fail the later
`firstAvg > 0` test the same way. -/
def halfAvg (l : List HealthRecord) : Option ℚ :=
  if l.length = 0 then none else some (sumValues l / l.length)

/-- Sort step `data.sort((a, b) => new Date(a.created_at).getTime() -
new Date(b.created_at).getTime())` shared by both trend functions. -/
def sortByCreatedAt (l : List HealthRecord) : List HealthRecord :=
  jsSort (fun a b => a.created_at ≤ b.created_at) l

/-- Exact model of `Math.round(x)`: round half toward positive
infinity. -/
def jsRound (q : ℚ) : ℤ := ⌊q + 1 / 2⌋

/-- Percent change `firstAvg > 0 ? ((secondAvg - firstAvg) / firstAvg)
* 100 : 0` of the two half averages; with a NaN (`none`) average the
JS comparison `NaN > 0` is false, so the result is `0`. -/
def trendChange (firstAvg secondAvg : Option ℚ) : ℚ :=
  match firstAvg, secondAvg with
  | some fa, some sa => if fa > 0 then (sa - fa) / fa * 100 else 0
  | _, _ => 0

/-- Function `calculateTrends(data)` from
`src/app/api/wellness/analytics/route.ts`: empty input short-circuits
to `no_data`; otherwise the series is sorted by `created_at`, split at
`floor(n / 2)`, the zero-filled half means are compared, and the
change is classified with the fixed 5-percent thresholds.  The
returned `change` field is rounded to two decimals; the classification
uses the unrounded change. -/
def calculateTrends (data : List HealthRecord) : TrendOut :=
  if data.length = 0 then ⟨"no_data", 0, none, none⟩
  else
    let sortedData := sortByCreatedAt data
    let firstHalf := sortedData.take (sortedData.length / 2)
    let secondHalf := sortedData.drop (sortedData.length / 2)
    let firstAvg := halfAvg firstHalf
    let secondAvg := halfAvg secondHalf
    let change := trendChange firstAvg secondAvg
    ⟨if change > 5 then "increasing" else if change < -5 then "decreasing" else "stable",
     (jsRound (change * 100) : ℚ) / 100, firstAvg, secondAvg⟩

/-- Function `calculateSimpleTrend(data)` from
`src/app/api/wellness/dashboard/route.ts`: any series with fewer than
2 points is `insufficient_data`; otherwise the same split-half
comparison as `calculateTrends`, returning only the label. -/
def calculateSimpleTrend (data : List HealthRecord) : String :=
  if data.length < 2 then "insufficient_data"
  else
    let sortedData := sortByCreatedAt data
    let firstHalf := sortedData.take (sortedData.length / 2)
    let secondHalf := sortedData.drop (sortedData.length / 2)
    let change := trendChange (halfAvg firstHalf) (halfAvg secondHalf)
    if change > 5 then "increasing" else if change < -5 then "decreasing" else "stable"

/-- Function `groupDataByDate(healthData)` from the unnamed analytics
source file: a two-level JS object, outer keys the day keys in first
encounter order, inner objects mapping `data_type` to the raw payload;
a later record with the same day and type overwrites the payload. -/
def groupDataByDate (healthData : List HealthRecord) : List (String × List (String × JSVal)) :=
  healthData.foldl
    (fun dailyData entry =>
      let dateKey := dayKey entry.date
      jsSet dateKey (jsSet entry.data_type entry.data ((jsGet dailyData dateKey).getD [])) dailyData)
    []

/-- Line `Object.keys(dailyData[Object.keys(dailyData)[0]] || {})` of
`calculateCorrelations`: the data types present on the *first* day of
the window only (empty for empty input). -/
def firstDayTypes (dailyData : List (String × List (String × JSVal))) : List String :=
  match dailyData with
  | [] => []
  | (_, day) :: _ => day.map Prod.fst

/-- Per-day body of the sample-collection loop of
`calculateCorrelations`: the day contributes a sample for the pair
`(t1, t2)` exactly when `day[t1] && day[t2]` is truthy and both
payloads extract to a numeric value. -/
def daySample (day : List (String × JSVal)) (t1 t2 : String) : Option (ℚ × ℚ) :=
  match jsGet day t1, jsGet day t2 with
  | some v1, some v2 =>
      if v1.truthy && v2.truthy then
        match extractNumericValue v1, extractNumericValue v2 with
        | some q1, some q2 => some (q1, q2)
        | _, _ => none
      else none
  | _, _ => none

/-- The parallel arrays `values1` / `values2` of
`calculateCorrelations`, as a single list of pairs collected over
`Object.values(dailyData)` in order. -/
def pairSamples (dailyData : List (String × List (String × JSVal))) (t1 t2 : String) :
    List (ℚ × ℚ) :=
  (dailyData.map Prod.snd).filterMap (fun day => daySample day t1 t2)

/-- The double index loop `for i ... for j = i + 1 ...` over a type
list: all ordered pairs with the first component strictly earlier. -/
def allPairs : List String → List (String × String)
  | [] => []
  | t :: ts => ts.map (fun u => (t, u)) ++ allPairs ts

/-- Return value of `calculatePearsonCorrelation(x, y)`, kept exact:
the coefficient is `num / Real.sqrt dsq` (see `rval`), with the JS
convention that a zero denominator gives coefficient `0`. -/
structure PearsonRep where
  num : ℚ
  dsq : ℚ
deriving DecidableEq

/-- Function `calculatePearsonCorrelation(x, y)` from the unnamed
analytics source file, with `num` the numerator
`n*sumXY - sumX*sumY` and `dsq` the radicand
`(n*sumX2 - sumX^2) * (n*sumY2 - sumY^2)` of the denominator.
The index-wise sum `sum + xi * y[i]` is modelled with `zip`; inside
the engine the two arrays always have equal length. -/
def calculatePearsonCorrelation (x y : List ℚ) : PearsonRep :=
  let n : ℚ := x.length
  let sumX := x.foldl (fun a b => a + b) 0
  let sumY := y.foldl (fun a b => a + b) 0
  let sumXY := (x.zip y).foldl (fun sum p => sum + p.1 * p.2) 0
  let sumX2 := x.foldl (fun sum xi => sum + xi * xi) 0
  let sumY2 := y.foldl (fun sum yi => sum + yi * yi) 0
  ⟨n * sumXY - sumX * sumY, (n * sumX2 - sumX * sumX) * (n * sumY2 - sumY * sumY)⟩

/-- Real value of the coefficient:
`denominator === 0 ? 0 : numerator / denominator` with
`denominator = Math.sqrt(dsq)`. -/
noncomputable def rval (p : PearsonRep) : ℝ :=
  if Real.sqrt (p.dsq : ℝ) = 0 then 0 else (p.num : ℝ) / Real.sqrt (p.dsq : ℝ)

/-- Exact decision of `Math.abs(r) > t` for the coefficient encoded by
`p` and a rational threshold `t ≥ 0`: when the radicand is not
positive the coefficient is `0`, otherwise square both sides
(`absGT_spec` below proves this equivalent to `t < |rval p|`). -/
def absGT (p : PearsonRep) (t : ℚ) : Bool :=
  if p.dsq ≤ 0 then decide (0 > t) else decide (p.num ^ 2 > t ^ 2 * p.dsq)

/-- Exact decision of `r > 0`: the coefficient is positive exactly when
the radicand is positive and the numerator is. -/
def positiveB (p : PearsonRep) : Bool :=
  decide (0 < p.dsq) && decide (0 < p.num)

/-- Floor of `c * sqrt M` computed exactly: for `c ≥ 0` it is the
integer square root of the floor of `c^2 * M`, and for `c < 0` the
negation, corrected by one except when `c^2 * M` is a perfect square. -/
def floorMulSqrtNat (c : ℚ) (M : ℕ) : ℤ :=
  let t : ℚ := c ^ 2 * M
  let s : ℤ := (Nat.sqrt ⌊t⌋.toNat : ℤ)
  if 0 ≤ c then s else if (s : ℚ) ^ 2 = t then -s else -s - 1

/-- Exact model of `Math.round(r * 100) / 100` for the coefficient
`r = num / sqrt dsq` encoded by `p`.  Writing `dsq = a / b` in lowest
terms, `r * 100 = c * sqrt (a*b)` with `c = 100 * num / (dsq * b)`,
and `floor(x + 1/2) = (floor(2 * x) + 1).fdiv 2`. -/
def roundTwo (p : PearsonRep) : ℚ :=
  if p.dsq ≤ 0 then 0
  else
    let b : ℤ := (p.dsq.den : ℤ)
    let m : ℕ := (p.dsq.num * b).toNat
    let c : ℚ := 100 * p.num / (p.dsq * b)
    ((floorMulSqrtNat (2 * c) m + 1).fdiv 2 : ℚ) / 100

/-- One entry of the output list of `calculateCorrelations`:
`{type1, type2, correlation, strength, direction, dataPoints}` with
the coefficient rounded to two decimals. -/
structure Correlation where
  type1 : String
  type2 : String
  correlation : ℚ
  strength : String
  direction : String
  dataPoints : ℕ
deriving DecidableEq

/-- Body of the pair loop of `calculateCorrelations`: at least 4
paired samples are required, then the Pearson coefficient is computed
and kept only when `|r| > 0.3`, classified strong above `0.7` and by
the sign of `r`. -/
def mkCorrelation (t1 t2 : String) (samples : List (ℚ × ℚ)) : Option Correlation :=
  if samples.length > 3 then
    let p := calculatePearsonCorrelation (samples.map Prod.fst) (samples.map Prod.snd)
    if absGT p (3 / 10) then
      some ⟨t1, t2, roundTwo p,
            if absGT p (7 / 10) then "strong" else "moderate",
            if positiveB p then "positive" else "negative",
            samples.length⟩
    else none
  else none

/-- Function `calculateCorrelations(dailyData)` from the unnamed
analytics source file: enumerate the types of the first day, loop over
the index pairs, collect day-aligned samples, filter by sample count
and significance, and sort descending by the absolute rounded
coefficient (the JS comparator sort is stable). -/
def calculateCorrelations (dailyData : List (String × List (String × JSVal))) :
    List Correlation :=
  let dataTypes := firstDayTypes dailyData
  let correlations := (allPairs dataTypes).filterMap
    (fun pr => mkCorrelation pr.1 pr.2 (pairSamples dailyData pr.1 pr.2))
  jsSort (fun a b => |b.correlation| ≤ |a.correlation|) correlations

/-- Payload actually averaged by `calculateAverageValue`:
`entry.data || entry[dataType + "_data"]` — the main payload when
truthy, the legacy column otherwise. -/
def effData (e : HealthRecord) : JSVal :=
  if e.data.truthy then e.data else e.typed_data

/-- Function `calculateAverageValue(entries)` from the unnamed
analytics source file: extract a numeric value from each entry,
*drop* the entries without one, and average the rest; empty input or
no extractable value gives `0`. -/
def calculateAverageValue (entries : List HealthRecord) : ℚ :=
  if entries.length = 0 then 0
  else
    let values := entries.filterMap (fun entry => extractNumericValue (effData entry))
    if values.length = 0 then 0
    else values.foldl (fun sum val => sum + val) 0 / values.length

/-- JS number produced by the goal-progress division: a finite
rational, or one of the special values `Infinity`, `-Infinity`, `NaN`
that JS division by zero produces. -/
inductive JNum where
  | fin (q : ℚ) : JNum
  | inf : JNum
  | ninf : JNum
  | nan : JNum
deriving DecidableEq

/-- JS division `a / b` of two finite numbers: division by zero gives
`NaN` for `0 / 0` and a signed infinity otherwise. -/
def jdiv (a b : ℚ) : JNum :=
  if b = 0 then (if a = 0 then .nan else if a > 0 then .inf else .ninf) else .fin (a / b)

/-- Multiplication of a JS number by the positive constant `100`:
special values are preserved. -/
def jmul100 : JNum → JNum
  | .fin q => .fin (q * 100)
  | x => x

/-- JS `Math.min(x, c)` against a finite constant: `NaN` is absorbing,
`Infinity` yields the constant. -/
def jminC (x : JNum) (c : ℚ) : JNum :=
  match x with
  | .nan => .nan
  | .inf => .fin c
  | .ninf => .ninf
  | .fin q => .fin (min q c)

/-- Result object of `calculateGoalProgress` (source field names kept:
the spec calls `dataConsistency` the consistency percentage). -/
structure ProgressOut where
  completionPercentage : JNum
  dataConsistency : JNum
  totalEntries : ℕ
  averageEntriesPerDay : ℚ
deriving DecidableEq

/-- Elapsed days
`Math.ceil((now - start) / (1000 * 60 * 60 * 24))` of
`calculateGoalProgress`; both instants are in milliseconds. -/
def totalDaysElapsed (now start_ms : ℤ) : ℤ :=
  ⌈((now - start_ms : ℤ) : ℚ) / 86400000⌉

/-- Distinct-calendar-day count
`new Set(healthData.map(d => d.date.split("T")[0])).size`. -/
def daysWithData (healthData : List HealthRecord) : ℕ :=
  ((healthData.map (fun d => dayKey d.date)).dedup).length

/-- Function `calculateGoalProgress(goal, healthData)` from the
unnamed analytics source file, with the current instant and the goal
start date passed explicitly (`new Date().getTime()` and
`new Date(goal.start_date).getTime()` in the source).  Note that only
`averageEntriesPerDay` floors the elapsed-day count at 1; the two
percentages divide by the raw count, so zero elapsed days produces
`NaN` or `Infinity` exactly as in JS. -/
def calculateGoalProgress (now start_ms : ℤ) (healthData : List HealthRecord) : ProgressOut :=
  let totalDays := totalDaysElapsed now start_ms
  let dataDays := daysWithData healthData
  { completionPercentage := jminC (jmul100 (jdiv (dataDays : ℚ) (totalDays : ℚ))) 100
    dataConsistency := jmul100 (jdiv (dataDays : ℚ) (totalDays : ℚ))
    totalEntries := healthData.length
    averageEntriesPerDay := (healthData.length : ℚ) / ((max totalDays 1 : ℤ) : ℚ) }

/-- Input of one full engine run: the record collection, the goal
start date, and the fixed current instant. -/
structure EngineInput where
  now : ℤ
  goalStart : ℤ
  records : List HealthRecord

/-- One full run of the canonical analytics engine on fixed inputs:
trend classification, Pearson correlation list (the spec designates
the Pearson path as canonical; the placeholder
`calculateSimpleCorrelation`, which calls `Math.random()`, is
excluded from the specification), and goal progress. -/
def runEngine (inp : EngineInput) : TrendOut × List Correlation × ProgressOut :=
  (calculateTrends inp.records,
   calculateCorrelations (groupDataByDate inp.records),
   calculateGoalProgress inp.now inp.goalStart inp.records)

/-! Claim-side definitions.  Each `spec...` definition below follows
the wording of the specification (or of a claim amended as little as a
counterexample forces) rather than the source code; the theorems
compare the embedded source functions against them. -/

/-- Claim-side probe loop for the amended record-normalizer claim:
walk the probe list in order and return the first field holding a
*nonzero* number; a present-but-non-numeric field and a field holding
the number `0` are skipped, not coerced. -/
def specProbeFirstNonzero (fields : List (String × JSVal)) : List String → Option ℚ
  | [] => none
  | f :: rest =>
      match jsGet fields f with
      | some (.num q) => if q = 0 then specProbeFirstNonzero fields rest else some q
      | _ => specProbeFirstNonzero fields rest

/-- Claim-side record normalizer (amended): numeric payloads are
returned as-is, object payloads are probed by
`specProbeFirstNonzero`, anything else has no value. -/
def specExtract (v : JSVal) : Option ℚ :=
  match v with
  | .num q => some q
  | .obj fields => specProbeFirstNonzero fields numericFields
  | _ => none

/-- Classification thresholds of the spec: more than +5 percent is
increasing, less than -5 percent decreasing, otherwise stable. -/
def trendLabel (pc : ℚ) : String :=
  if pc > 5 then "increasing" else if pc < -5 then "decreasing" else "stable"

/-- Arithmetic mean of a half with missing values contributing `0` and
counted in the denominator (the amended reading, which is what the
code computes). -/
def zeroFillMean (l : List HealthRecord) : ℚ :=
  (l.map (fun r => r.value.getD 0)).sum / l.length

/-- Arithmetic mean of a half with missing values *excluded* from the
mean, `0` when every value is missing (the original claim wording). -/
def excludedMean (l : List HealthRecord) : ℚ :=
  let vs := l.filterMap (fun r => r.value)
  if vs.length = 0 then 0 else vs.sum / vs.length

/-- Percent change of the spec:
`(secondMean - firstMean) / firstMean * 100` when the first mean is
positive, else `0`. -/
def specPercentChange (m1 m2 : ℚ) : ℚ :=
  if 0 < m1 then (m2 - m1) / m1 * 100 else 0

/-- Claim-side trend result (amended): sort chronologically, split at
`floor(n / 2)`, compare the zero-filled half means, round the reported
change to two decimals. -/
def specTrendOutput (data : List HealthRecord) : TrendOut :=
  let sorted := sortByCreatedAt data
  let fh := sorted.take (sorted.length / 2)
  let sh := sorted.drop (sorted.length / 2)
  let pc := specPercentChange (zeroFillMean fh) (zeroFillMean sh)
  ⟨trendLabel pc, (jsRound (pc * 100) : ℚ) / 100, some (zeroFillMean fh), some (zeroFillMean sh)⟩

/-- Trend result computed as the original claim states it, with
missing values excluded from the half means. -/
def specTrendOutputExcluded (data : List HealthRecord) : TrendOut :=
  let sorted := sortByCreatedAt data
  let fh := sorted.take (sorted.length / 2)
  let sh := sorted.drop (sorted.length / 2)
  let pc := specPercentChange (excludedMean fh) (excludedMean sh)
  ⟨trendLabel pc, (jsRound (pc * 100) : ℚ) / 100, some (excludedMean fh), some (excludedMean sh)⟩

/-- Step 1 of the spec correlation algorithm: all distinct `dataType`
values observed anywhere across the window. -/
def windowTypes (dailyData : List (String × List (String × JSVal))) : List String :=
  ((dailyData.map (fun d => d.2.map Prod.fst)).flatten).dedup

/-- Number of days on which both types have a representative numeric
value — the sample size the spec requires to exceed 3. -/
def overlapDays (dailyData : List (String × List (String × JSVal))) (t1 t2 : String) : ℕ :=
  (dailyData.map Prod.snd).countP (fun day => (daySample day t1 t2).isSome)

/-- Elapsed days as the claim states them: the ceiling, floored at 1. -/
def specTotalDaysElapsed (now start_ms : ℤ) : ℤ :=
  max (totalDaysElapsed now start_ms) 1

/-- Completion percentage as the claim states it:
`min(100, daysWithData / totalDaysElapsed * 100)` with the floored
elapsed-day count. -/
def specCompletionPercentage (now start_ms : ℤ) (records : List HealthRecord) : ℚ :=
  min 100 ((daysWithData records : ℚ) / ((specTotalDaysElapsed now start_ms : ℤ) : ℚ) * 100)

/-- Consistency percentage as the claim states it: the same ratio,
uncapped. -/
def specConsistencyPercentage (now start_ms : ℤ) (records : List HealthRecord) : ℚ :=
  (daysWithData records : ℚ) / ((specTotalDaysElapsed now start_ms : ℤ) : ℚ) * 100

/-- Average entries per day as the claim states it. -/
def specAverageEntriesPerDay (now start_ms : ℤ) (records : List HealthRecord) : ℚ :=
  (records.length : ℚ) / ((specTotalDaysElapsed now start_ms : ℤ) : ℚ)

/-! Concrete inputs used by the counterexample and witness theorems. -/

/-- Record constructor for plain-valued trend series: only
`created_at` and `value` matter to the trend functions. -/
def trendRec (t : ℤ) (v : Option ℚ) : HealthRecord :=
  ⟨t, "2024-01-01", "sleep", .null, .null, v⟩

/-- Series `[4, 4, 4, 8, 8, 8]` of the spec scenario, in
chronological order. -/
def scenarioSeries : List HealthRecord :=
  [trendRec 1 (some 4), trendRec 2 (some 4), trendRec 3 (some 4),
   trendRec 4 (some 8), trendRec 5 (some 8), trendRec 6 (some 8)]

/-- Four-point series whose last value is missing: the code zero-fills
it, the original claim would exclude it. -/
def missingValueSeries : List HealthRecord :=
  [trendRec 1 (some 4), trendRec 2 (some 4), trendRec 3 (some 8), trendRec 4 none]

/-- Record on a given calendar day (only `date` matters to
`calculateGoalProgress`). -/
def dayRec (d : String) : HealthRecord :=
  ⟨0, d, "sleep", .null, .null, none⟩

/-- Five records on five distinct calendar days (the ten-day spec
scenario). -/
def fiveDayRecords : List HealthRecord :=
  [dayRec "2024-01-01", dayRec "2024-01-02", dayRec "2024-01-03",
   dayRec "2024-01-04", dayRec "2024-01-05"]

/-- Two records on two distinct calendar days, both inside a window of
one hour of elapsed time (a goal started late in the evening). -/
def twoDayRecords : List HealthRecord :=
  [dayRec "2024-01-01", dayRec "2024-01-02"]

/-- Day-aligned input for the correlation counterexample: the type
`mood` alone on the first day, then four days on which `sleep` and
`stress` are both present and perfectly correlated. -/
def cexDaily : List (String × List (String × JSVal)) :=
  [("2024-01-01", [("mood", .num 3)]),
   ("2024-01-02", [("sleep", .num 1), ("stress", .num 2)]),
   ("2024-01-03", [("sleep", .num 2), ("stress", .num 4)]),
   ("2024-01-04", [("sleep", .num 3), ("stress", .num 6)]),
   ("2024-01-05", [("sleep", .num 4), ("stress", .num 8)])]

/-! Helper lemmas. -/

theorem stableInsert_perm (le : α → α → Bool) (a : α) (l : List α) :
    (stableInsert le a l).Perm (a :: l) := by
  induction l with
  | nil => exact List.Perm.refl _
  | cons b bs ih =>
      simp only [stableInsert]
      split
      · exact (ih.cons b).trans (List.Perm.swap a b bs)
      · exact List.Perm.refl _

theorem jsSort_perm (le : α → α → Bool) (l : List α) : (jsSort le l).Perm l := by
  induction l with
  | nil => exact List.Perm.refl _
  | cons a as ih => exact (stableInsert_perm le a (jsSort le as)).trans (ih.cons a)

theorem mem_jsSort {le : α → α → Bool} {l : List α} {x : α} :
    x ∈ jsSort le l ↔ x ∈ l :=
  (jsSort_perm le l).mem_iff

theorem length_jsSort (le : α → α → Bool) (l : List α) :
    (jsSort le l).length = l.length :=
  (jsSort_perm le l).length_eq

theorem foldl_add_eq_add_sum (f : α → ℚ) (a : ℚ) (l : List α) :
    l.foldl (fun s x => s + f x) a = a + (l.map f).sum := by
  induction l generalizing a with
  | nil => simp
  | cons x xs ih => simp only [List.foldl_cons, List.map_cons, List.sum_cons, ih]; ring

theorem sumValues_eq (l : List HealthRecord) :
    sumValues l = (l.map (fun r => r.value.getD 0)).sum := by
  simpa using foldl_add_eq_add_sum (fun r : HealthRecord => r.value.getD 0) 0 l

theorem halfAvg_of_length_ne_zero (l : List HealthRecord) (h : l.length ≠ 0) :
    halfAvg l = some (zeroFillMean l) := by
  unfold halfAvg zeroFillMean
  rw [if_neg h, sumValues_eq]

theorem trendChange_some (a b : ℚ) :
    trendChange (some a) (some b) = specPercentChange a b := rfl

theorem length_filterMap_eq_countP (f : α → Option β) (l : List α) :
    (l.filterMap f).length = l.countP (fun a => (f a).isSome) := by
  induction l with
  | nil => rfl
  | cons a as ih =>
      cases h : f a <;>
        simp [List.filterMap_cons, h, List.countP_cons, ih]

theorem length_pairSamples (dailyData : List (String × List (String × JSVal)))
    (t1 t2 : String) :
    (pairSamples dailyData t1 t2).length = overlapDays dailyData t1 t2 :=
  length_filterMap_eq_countP _ _

theorem mem_allPairs {p : String × String} :
    ∀ {l : List String}, p ∈ allPairs l → p.1 ∈ l ∧ p.2 ∈ l := by
  intro l
  induction l with
  | nil => intro h; exact absurd h (List.not_mem_nil p)
  | cons t ts ih =>
      intro h
      rcases List.mem_append.mp h with h1 | h2
      · rcases List.mem_map.mp h1 with ⟨u, hu, he⟩
        constructor
        · rw [← he]; exact List.mem_cons_self t ts
        · rw [← he]; exact List.mem_cons_of_mem t hu
      · exact ⟨List.mem_cons_of_mem t (ih h2).1, List.mem_cons_of_mem t (ih h2).2⟩

theorem mkCorrelation_eq_some {t1 t2 : String} {s : List (ℚ × ℚ)} {c : Correlation}
    (h : mkCorrelation t1 t2 s = some c) :
    c.type1 = t1 ∧ c.type2 = t2 ∧ 3 < s.length ∧ c.dataPoints = s.length := by
  unfold mkCorrelation at h
  split at h
  · dsimp only at h
    split at h
    · rename_i hlen _
      cases h
      exact ⟨rfl, rfl, hlen, rfl⟩
    · exact absurd h (by simp)
  · exact absurd h (by simp)

theorem mem_calculateCorrelations {dailyData : List (String × List (String × JSVal))}
    {c : Correlation} (h : c ∈ calculateCorrelations dailyData) :
    c.type1 ∈ firstDayTypes dailyData ∧ c.type2 ∈ firstDayTypes dailyData ∧
      3 < overlapDays dailyData c.type1 c.type2 := by
  unfold calculateCorrelations at h
  rcases List.mem_filterMap.mp (mem_jsSort.mp h) with ⟨pr, hpr, heq⟩
  rcases mkCorrelation_eq_some heq with ⟨h1, h2, h3, _⟩
  have hm := mem_allPairs hpr
  refine ⟨h1 ▸ hm.1, h2 ▸ hm.2, ?_⟩
  rw [h1, h2, ← length_pairSamples]
  exact h3

theorem findSome?_congr_fn {f g : α → Option β} :
    ∀ l : List α, (∀ a ∈ l, f a = g a) → l.findSome? f = l.findSome? g := by
  intro l
  induction l with
  | nil => intro _; rfl
  | cons a as ih =>
      intro h
      rw [List.findSome?_cons, List.findSome?_cons, h a (List.mem_cons_self a as),
        ih (fun x hx => h x (List.mem_cons_of_mem a hx))]

theorem jsGet_cons (k : String) (v : β) (rest : List (String × β)) (g : String) :
    jsGet ((k, v) :: rest) g = if k == g then some v else jsGet rest g := by
  unfold jsGet
  rw [List.find?_cons]
  by_cases h : k == g <;> simp [h]

theorem jsGet_filter_self (fields : List (String × β)) (f : String) :
    jsGet (fields.filter (fun p => p.1 != f)) f = none := by
  unfold jsGet
  rw [Option.map_eq_none', List.find?_eq_none]
  intro p hp
  have := (List.mem_filter.mp hp).2
  simp only [bne_iff_ne, ne_eq] at this
  simp [this]

theorem jsGet_filter_ne (fields : List (String × β)) (f g : String) (h : ¬ g = f) :
    jsGet (fields.filter (fun p => p.1 != f)) g = jsGet fields g := by
  induction fields with
  | nil => rfl
  | cons p rest ih =>
      obtain ⟨k, v⟩ := p
      by_cases hk : k = f
      · subst hk
        rw [List.filter_cons_of_neg (by simp), jsGet_cons, if_neg (by simp [Ne.symm h]), ih]
      · rw [List.filter_cons_of_pos (by simp [hk]), jsGet_cons, jsGet_cons, ih]

theorem extract_probe_eq (fields : List (String × JSVal)) :
    ∀ probes : List String,
      probes.findSome? (fun field =>
        match jsGet fields field with
        | some (.num q) => if q != 0 then some q else none
        | _ => none) = specProbeFirstNonzero fields probes := by
  intro probes
  induction probes with
  | nil => rfl
  | cons f rest ih =>
      rw [List.findSome?_cons]
      cases hg : jsGet fields f with
      | none => simpa [specProbeFirstNonzero, hg] using ih
      | some v =>
          cases v with
          | num q =>
              by_cases hq : q = 0
              · simpa [specProbeFirstNonzero, hg, hq] using ih
              · simp [specProbeFirstNonzero, hg, hq]
          | null => simpa [specProbeFirstNonzero, hg] using ih
          | bool b => simpa [specProbeFirstNonzero, hg] using ih
          | str s => simpa [specProbeFirstNonzero, hg] using ih
          | obj o => simpa [specProbeFirstNonzero, hg] using ih

theorem absGT_spec (p : PearsonRep) (t : ℚ) (ht : 0 ≤ t) :
    absGT p t = true ↔ (t : ℝ) < |rval p| := by
  unfold absGT rval
  by_cases hd : p.dsq ≤ 0
  · have hs : Real.sqrt (p.dsq : ℝ) = 0 := Real.sqrt_eq_zero'.mpr (by exact_mod_cast hd)
    rw [if_pos hd, if_pos hs]
    simp only [abs_zero, decide_eq_true_eq]
    constructor
    · intro h
      exact_mod_cast h
    · intro h
      exact_mod_cast h
  · push_neg at hd
    have hd' : (0 : ℝ) < (p.dsq : ℝ) := by exact_mod_cast hd
    have hsp : 0 < Real.sqrt (p.dsq : ℝ) := Real.sqrt_pos.mpr hd'
    rw [if_neg (not_le.mpr hd), if_neg hsp.ne']
    simp only [decide_eq_true_eq]
    rw [abs_div, abs_of_pos hsp, lt_div_iff₀ hsp]
    constructor
    · intro h
      have h2 : ((t : ℝ) * Real.sqrt (p.dsq : ℝ)) ^ 2 < |(p.num : ℝ)| ^ 2 := by
        rw [mul_pow, Real.sq_sqrt (le_of_lt hd'), sq_abs]
        exact_mod_cast h
      exact lt_of_pow_lt_pow_left₀ 2 (abs_nonneg _) h2
    · intro h
      have h0 : (0 : ℝ) ≤ (t : ℝ) * Real.sqrt (p.dsq : ℝ) :=
        mul_nonneg (by exact_mod_cast ht) (le_of_lt hsp)
      have h2 := pow_lt_pow_left₀ h h0 (two_ne_zero)
      rw [mul_pow, Real.sq_sqrt (le_of_lt hd'), sq_abs] at h2
      exact_mod_cast h2

/-! Claim theorems. -/

/-- C1: for every fixed Record/Goal collection with the current
instant held fixed, running the full engine twice yields bit-identical
results — the same TrendResult, the same Correlation list in the same
order, and the same ProgressResult.  The canonical engine (with the
Pearson correlation path; the `Math.random()` placeholder is excluded
by the spec) is embedded as the pure function `runEngine`, so its
output depends on nothing but the input fields. -/
theorem engine_deterministic (a b : EngineInput) (hn : a.now = b.now)
    (hg : a.goalStart = b.goalStart) (hr : a.records = b.records) :
    runEngine a = runEngine b := by
  unfold runEngine
  rw [hn, hg, hr]

/-- Witness for `engine_deterministic` at a concrete input. -/
theorem engine_deterministic_witness :
    runEngine ⟨864000000, 0, fiveDayRecords⟩ = runEngine ⟨864000000, 0, fiveDayRecords⟩ :=
  engine_deterministic ⟨864000000, 0, fiveDayRecords⟩ ⟨864000000, 0, fiveDayRecords⟩
    rfl rfl rfl

/-- C2 (amended): for every series with fewer than 2 points the two
trend functions disagree with the claimed merged behavior.
`calculateTrends` returns direction `no_data` for an empty series, but
for a one-point series (where the first half is the empty slice, whose
JS mean `0 / 0 = NaN` fails the `firstAvg > 0` test) it returns
direction `stable`, not `insufficient_data`; in both cases it does
return the numeric `percentChange` value `0`.  `calculateSimpleTrend`
returns `insufficient_data` for every series with fewer than 2 points,
including the empty one (never `no_data`), and returns only the label,
with no `percentChange` at all. -/
theorem trend_short_series (r : HealthRecord) :
    (calculateTrends []).trend = "no_data" ∧
    (calculateTrends []).change = 0 ∧
    calculateSimpleTrend [] = "insufficient_data" ∧
    (calculateTrends [r]).trend = "stable" ∧
    (calculateTrends [r]).change = 0 ∧
    calculateSimpleTrend [r] = "insufficient_data" := by
  refine ⟨rfl, rfl, rfl, ?_, ?_, rfl⟩
  · simp [calculateTrends, sortByCreatedAt, jsSort, stableInsert, halfAvg, trendChange]
    norm_num
  · simp [calculateTrends, sortByCreatedAt, jsSort, stableInsert, halfAvg, trendChange, jsRound]
    norm_num

/-- Counterexample to C2 as stated, refuting each failing part of the
claim at a concrete input: on the one-point series
`[trendRec 1 (some 5)]` the function `calculateTrends` returns the
direction `stable`, not the claimed `insufficient_data`; on the empty
series it returns the numeric `percentChange` value `0`, although the
claim says no numeric `percentChange` is returned for fewer than 2
points; and on the empty series `calculateSimpleTrend` returns
`insufficient_data`, not the claimed `no_data`. -/
theorem trend_short_series_counterexample :
    (calculateTrends [trendRec 1 (some 5)]).trend = "stable" ∧
    (calculateTrends [trendRec 1 (some 5)]).trend ≠ "insufficient_data" ∧
    (calculateTrends []).change = 0 ∧
    calculateSimpleTrend [] = "insufficient_data" ∧
    calculateSimpleTrend [] ≠ "no_data" := by
  refine ⟨?_, ?_, rfl, rfl, by decide⟩
  · simp [calculateTrends, sortByCreatedAt, jsSort, stableInsert, halfAvg, trendChange, trendRec]
    norm_num
  · simp [calculateTrends, sortByCreatedAt, jsSort, stableInsert, halfAvg, trendChange, trendRec]
    norm_num
    decide

/-- C3 (amended): the record normalizer is total and returns a numeric
payload as-is; on an object payload it probes `value`, `level`,
`duration`, `quality`, `severity`, `systolic`, `diastolic` in that
fixed order and returns the first field holding a truthy (nonzero)
number — a present-but-non-numeric field is skipped, not coerced, and
a field holding the number `0` is skipped exactly like an absent
field; it returns the no-value marker when no field matches. -/
theorem extract_first_truthy_numeric (v : JSVal) :
    extractNumericValue v = specExtract v := by
  cases v with
  | obj fields =>
      simp only [extractNumericValue, specExtract]
      exact extract_probe_eq fields numericFields
  | null => rfl
  | bool b => rfl
  | num q => rfl
  | str s => rfl

/-- Counterexample to C3 as stated: the field `value` is present and
numeric with value `0`, so the claim requires `0` to be returned, but
the code skips the falsy `0` and returns the later field `level`; with
no later field it returns no value at all. -/
theorem extract_zero_field_counterexample :
    extractNumericValue (.obj [("value", .num 0), ("level", .num 5)]) = some 5 ∧
    (some (5 : ℚ) ≠ some (0 : ℚ)) ∧
    extractNumericValue (.obj [("value", .num 0)]) = none := by
  refine ⟨rfl, by decide, rfl⟩

/-- C4 (amended): the correlation analyzer enumerates only the
`dataType` values present on the first day of the grouped window (the
first date key in encounter order), so both types of every emitted
pair occur on that first day; a pair whose two types occur in the
window but not both on the first day is left unevaluated. -/
theorem correlations_types_from_first_day
    (dailyData : List (String × List (String × JSVal))) :
    (calculateCorrelations dailyData).all
      (fun c => decide (c.type1 ∈ firstDayTypes dailyData) &&
                decide (c.type2 ∈ firstDayTypes dailyData)) = true := by
  rw [List.all_eq_true]
  intro c hc
  have h := mem_calculateCorrelations hc
  simp [h.1, h.2.1]

/-- Counterexample to C4 as stated: in `cexDaily` the types `sleep`
and `stress` are both observed across the window and have 4
overlapping days with a perfect linear relation, yet the output is
empty, because the first day of the window only carries `mood`. -/
theorem correlations_first_day_counterexample :
    calculateCorrelations cexDaily = [] ∧
    "sleep" ∈ windowTypes cexDaily ∧
    "stress" ∈ windowTypes cexDaily ∧
    overlapDays cexDaily "sleep" "stress" = 4 ∧
    firstDayTypes cexDaily = ["mood"] := by
  exact ⟨rfl, by decide, by decide, by decide, rfl⟩

theorem calculateGoalProgress_of_pos (now start_ms : ℤ) (records : List HealthRecord)
    (h : 1 ≤ totalDaysElapsed now start_ms) :
    calculateGoalProgress now start_ms records =
      ⟨.fin (min ((daysWithData records : ℚ) / ((totalDaysElapsed now start_ms : ℤ) : ℚ) * 100) 100),
       .fin ((daysWithData records : ℚ) / ((totalDaysElapsed now start_ms : ℤ) : ℚ) * 100),
       records.length,
       (records.length : ℚ) / ((totalDaysElapsed now start_ms : ℤ) : ℚ)⟩ := by
  have hz : ((totalDaysElapsed now start_ms : ℤ) : ℚ) ≠ 0 := by
    exact_mod_cast (by omega : totalDaysElapsed now start_ms ≠ 0)
  have hmax : max (totalDaysElapsed now start_ms) 1 = totalDaysElapsed now start_ms :=
    max_eq_left h
  simp only [calculateGoalProgress, jdiv, jmul100, jminC, hmax, hz, if_false, if_neg hz]

/-- C5 (amended): the goal progress calculator computes
`totalDaysElapsed` as the raw ceiling of the elapsed days — the floor
at 1 is applied only inside `averageEntriesPerDay`, not in the two
percentages, so zero elapsed days does produce a division by zero
(giving `NaN` or, through `Math.min(Infinity, 100)`, `100`).  When at
least one day has elapsed the claimed formulas hold exactly:
completion is `min(100, daysWithData / totalDaysElapsed * 100)`,
consistency the same uncapped ratio, and the average is
`totalEntries / totalDaysElapsed`. -/
theorem goal_progress_formulas (now start_ms : ℤ) (records : List HealthRecord)
    (h : 1 ≤ totalDaysElapsed now start_ms) :
    calculateGoalProgress now start_ms records =
      ⟨.fin (specCompletionPercentage now start_ms records),
       .fin (specConsistencyPercentage now start_ms records),
       records.length,
       specAverageEntriesPerDay now start_ms records⟩ := by
  rw [calculateGoalProgress_of_pos now start_ms records h]
  unfold specCompletionPercentage specConsistencyPercentage specAverageEntriesPerDay
    specTotalDaysElapsed
  rw [max_eq_left h, min_comm]

/-- Witness for `goal_progress_formulas`: the ten-day spec scenario,
5 distinct data days over 10 elapsed days, giving completion 50,
consistency 50 and half an entry per day. -/
theorem goal_progress_formulas_witness :
    calculateGoalProgress 864000000 0 fiveDayRecords =
      ⟨.fin 50, .fin 50, 5, 1 / 2⟩ := by
  have h10 : totalDaysElapsed 864000000 0 = 10 := by norm_num [totalDaysElapsed]
  have h := goal_progress_formulas 864000000 0 fiveDayRecords (by rw [h10]; norm_num)
  rw [h]
  have h5 : daysWithData fiveDayRecords = 5 := by decide
  have hlen : fiveDayRecords.length = 5 := rfl
  norm_num [specCompletionPercentage, specConsistencyPercentage, specAverageEntriesPerDay,
    specTotalDaysElapsed, h10, h5, hlen]

/-- Counterexample to C5 as stated: with zero elapsed days
(`now = startDate`) and no records, the claimed floor at 1 would give
completion `min(100, 0 / 1 * 100) = 0`, but the code divides `0 / 0`
and returns `NaN`. -/
theorem goal_progress_zero_days_counterexample :
    (calculateGoalProgress 0 0 []).completionPercentage = JNum.nan ∧
    JNum.nan ≠ JNum.fin (min 100 ((0 : ℚ) / 1 * 100)) := by
  constructor
  · have h0 : totalDaysElapsed 0 0 = 0 := by norm_num [totalDaysElapsed]
    norm_num [calculateGoalProgress, h0, daysWithData, jdiv, jmul100, jminC, List.dedup]
  · simp

/-- C6 (amended): when at least one day has elapsed the completion
percentage is finite with `0 ≤ completionPercentage ≤ 100`, and the
consistency percentage is finite and nonnegative — but the code does
not cap consistency at 100, so `consistencyPercentage ∈ [0, 100]`
fails in general. -/
theorem progress_percentage_bounds (now start_ms : ℤ) (records : List HealthRecord)
    (h : 1 ≤ totalDaysElapsed now start_ms) :
    ∃ c k : ℚ,
      (calculateGoalProgress now start_ms records).completionPercentage = .fin c ∧
      0 ≤ c ∧ c ≤ 100 ∧
      (calculateGoalProgress now start_ms records).dataConsistency = .fin k ∧ 0 ≤ k := by
  have ht : (0 : ℚ) < ((totalDaysElapsed now start_ms : ℤ) : ℚ) := by
    exact_mod_cast (by omega : (0 : ℤ) < totalDaysElapsed now start_ms)
  have hk : (0 : ℚ) ≤ (daysWithData records : ℚ) / ((totalDaysElapsed now start_ms : ℤ) : ℚ) * 100 :=
    mul_nonneg (div_nonneg (Nat.cast_nonneg _) (le_of_lt ht)) (by norm_num)
  rw [calculateGoalProgress_of_pos now start_ms records h]
  exact ⟨_, _, rfl, le_min hk (by norm_num), min_le_right _ _, rfl, hk⟩

/-- Witness for `progress_percentage_bounds` at the ten-day scenario. -/
theorem progress_percentage_bounds_witness :
    ∃ c k : ℚ,
      (calculateGoalProgress 864000000 0 fiveDayRecords).completionPercentage = .fin c ∧
      0 ≤ c ∧ c ≤ 100 ∧
      (calculateGoalProgress 864000000 0 fiveDayRecords).dataConsistency = .fin k ∧ 0 ≤ k :=
  progress_percentage_bounds 864000000 0 fiveDayRecords
    (by norm_num [totalDaysElapsed])

/-- Counterexample to C6 as stated: a goal started one hour ago
(elapsed-day ceiling 1) with records on two distinct calendar days
inside that window gives `consistencyPercentage = 200 > 100`. -/
theorem consistency_above_100_counterexample :
    (calculateGoalProgress 3600000 0 twoDayRecords).dataConsistency = JNum.fin 200 ∧
    ¬ (200 : ℚ) ≤ 100 := by
  constructor
  · have h1 : totalDaysElapsed 3600000 0 = 1 := by
      rw [totalDaysElapsed, Int.ceil_eq_iff]
      norm_num
    have h2 : daysWithData twoDayRecords = 2 := by decide
    norm_num [calculateGoalProgress, h1, h2, jdiv, jmul100, jminC]
  · norm_num

/-- C7 (amended): for a series of at least 2 points both trend
functions split the chronologically sorted series at `floor(n / 2)`,
compute each half mean with missing or non-numeric values contributing
`0` to the sum while still counted in the denominator (they are *not*
excluded), set the percent change to
`(secondMean - firstMean) / firstMean * 100` when the first mean is
positive and `0` otherwise, and classify with the fixed 5-percent
thresholds; the series `[4,4,4,8,8,8]` yields percent change 100 and
direction increasing (see the witness). -/
theorem trend_split_half_formula (data : List HealthRecord) (h : 2 ≤ data.length) :
    calculateTrends data = specTrendOutput data ∧
      calculateSimpleTrend data = (specTrendOutput data).trend := by
  have hlen : (sortByCreatedAt data).length = data.length := length_jsSort _ _
  have hne : ¬ data.length = 0 := by omega
  have hlt : ¬ data.length < 2 := by omega
  have hfh : ((sortByCreatedAt data).take ((sortByCreatedAt data).length / 2)).length ≠ 0 := by
    rw [List.length_take, hlen]; omega
  have hsh : ((sortByCreatedAt data).drop ((sortByCreatedAt data).length / 2)).length ≠ 0 := by
    rw [List.length_drop, hlen]; omega
  constructor
  · simp only [calculateTrends, specTrendOutput, if_neg hne,
      halfAvg_of_length_ne_zero _ hfh, halfAvg_of_length_ne_zero _ hsh, trendChange_some,
      trendLabel]
  · simp only [calculateSimpleTrend, specTrendOutput, if_neg hlt,
      halfAvg_of_length_ne_zero _ hfh, halfAvg_of_length_ne_zero _ hsh, trendChange_some,
      trendLabel]

/-- Witness for `trend_split_half_formula`: the spec scenario
`[4,4,4,8,8,8]` gives percent change 100 and direction increasing in
both trend functions. -/
theorem trend_split_half_formula_witness :
    calculateTrends scenarioSeries = ⟨"increasing", 100, some 4, some 8⟩ ∧
      calculateSimpleTrend scenarioSeries = "increasing" := by
  have h := trend_split_half_formula scenarioSeries (by decide)
  have hs : sortByCreatedAt scenarioSeries = scenarioSeries := by rfl
  have hspec : specTrendOutput scenarioSeries = ⟨"increasing", 100, some 4, some 8⟩ := by
    have h1 : zeroFillMean (scenarioSeries.take 3) = 4 := by
      norm_num [scenarioSeries, trendRec, zeroFillMean]
    have h2 : zeroFillMean (scenarioSeries.drop 3) = 8 := by
      norm_num [scenarioSeries, trendRec, zeroFillMean]
    have hl : scenarioSeries.length = 6 := rfl
    simp only [specTrendOutput, hs, hl]
    norm_num [h1, h2, specPercentChange, trendLabel, jsRound]
  exact ⟨h.1.trans hspec, h.2.trans (by rw [hspec])⟩

/-- Counterexample to C7 as stated: on the series with values
`[4, 4, 8, missing]` the code zero-fills the missing value, giving a
second-half mean of 4 and direction `stable`, while the claimed
exclusion of missing values would give a second-half mean of 8,
percent change 100 and direction `increasing`. -/
theorem trend_missing_values_counterexample :
    (calculateTrends missingValueSeries).trend = "stable" ∧
    (specTrendOutputExcluded missingValueSeries).trend = "increasing" ∧
    calculateTrends missingValueSeries ≠ specTrendOutputExcluded missingValueSeries := by
  have hs : sortByCreatedAt missingValueSeries = missingValueSeries := by rfl
  have hl : missingValueSeries.length = 4 := rfl
  have hcode : (calculateTrends missingValueSeries).trend = "stable" := by
    have h1 : halfAvg (missingValueSeries.take 2) = some 4 := by
      norm_num [missingValueSeries, trendRec, halfAvg, sumValues]
    have h2 : halfAvg (missingValueSeries.drop 2) = some 4 := by
      norm_num [missingValueSeries, trendRec, halfAvg, sumValues]
    simp only [calculateTrends, hs, hl]
    norm_num [h1, h2, trendChange]
  have hspec : (specTrendOutputExcluded missingValueSeries).trend = "increasing" := by
    have h1 : excludedMean (missingValueSeries.take 2) = 4 := by
      norm_num [missingValueSeries, trendRec, excludedMean, List.filterMap_cons]
    have h2 : excludedMean (missingValueSeries.drop 2) = 8 := by
      norm_num [missingValueSeries, trendRec, excludedMean, List.filterMap_cons]
    simp only [specTrendOutputExcluded, hs, hl]
    norm_num [h1, h2, specPercentChange, trendLabel]
  refine ⟨hcode, hspec, fun he => ?_⟩
  rw [congrArg TrendOut.trend he, hspec] at hcode
  exact absurd hcode (by decide)

/-- C8: every pair in the correlation output has more than 3 days on
which both types carry a representative numeric value; a pair with at
most 3 overlapping days is absent from the output regardless of what
its coefficient would be (the sample-size guard runs before the
coefficient is computed). -/
theorem correlations_min_sample_size
    (dailyData : List (String × List (String × JSVal))) :
    (calculateCorrelations dailyData).all
      (fun c => decide (3 < overlapDays dailyData c.type1 c.type2)) = true := by
  rw [List.all_eq_true]
  intro c hc
  exact decide_eq_true (mem_calculateCorrelations hc).2.2

theorem foldl_add_replicate (n : ℕ) (c a : ℚ) :
    (List.replicate n c).foldl (fun x y => x + y) a = a + n * c := by
  induction n generalizing a with
  | zero => simp
  | succ m ih =>
      rw [List.replicate_succ, List.foldl_cons, ih]
      push_cast
      ring

theorem foldl_sq_replicate (n : ℕ) (c a : ℚ) :
    (List.replicate n c).foldl (fun s x => s + x * x) a = a + n * (c * c) := by
  induction n generalizing a with
  | zero => simp
  | succ m ih =>
      rw [List.replicate_succ, List.foldl_cons, ih]
      push_cast
      ring

theorem zip_replicate_same (n : ℕ) (c : α) (d : β) :
    (List.replicate n c).zip (List.replicate n d) = List.replicate n (c, d) := by
  induction n with
  | zero => rfl
  | succ m ih => simp [List.replicate_succ, ih]

theorem foldl_mul_replicate (n : ℕ) (c d a : ℚ) :
    ((List.replicate n c).zip (List.replicate n d)).foldl (fun s p => s + p.1 * p.2) a
      = a + n * (c * d) := by
  rw [zip_replicate_same]
  induction n generalizing a with
  | zero => simp
  | succ m ih =>
      rw [List.replicate_succ, List.foldl_cons, ih]
      push_cast
      ring

theorem pearson_replicate (n : ℕ) (c d : ℚ) :
    calculatePearsonCorrelation (List.replicate n c) (List.replicate n d) = ⟨0, 0⟩ := by
  unfold calculatePearsonCorrelation
  rw [List.length_replicate, foldl_add_replicate, foldl_add_replicate, foldl_mul_replicate,
    foldl_sq_replicate, foldl_sq_replicate]
  simp only [zero_add, PearsonRep.mk.injEq]
  constructor
  · ring
  · ring

/-- C9: whenever the Pearson denominator `sqrt(dsq)` is zero the
computation returns coefficient `0` (no division by zero, no
exception); in particular for two constant series of the same length
at least 4 the coefficient is `0`, the significance test `|r| > 0.3`
fails, and the pair is omitted from the output. -/
theorem pearson_zero_denominator :
    (∀ x y : List ℚ, Real.sqrt ((calculatePearsonCorrelation x y).dsq : ℝ) = 0 →
        rval (calculatePearsonCorrelation x y) = 0) ∧
    (∀ (c d : ℚ) (n : ℕ) (t1 t2 : String), 4 ≤ n →
        rval (calculatePearsonCorrelation (List.replicate n c) (List.replicate n d)) = 0 ∧
        absGT (calculatePearsonCorrelation (List.replicate n c) (List.replicate n d))
          (3 / 10) = false ∧
        mkCorrelation t1 t2 (List.replicate n (c, d)) = none) := by
  constructor
  · intro x y hs
    unfold rval
    rw [if_pos hs]
  · intro c d n t1 t2 hn
    have hmap1 : (List.replicate n ((c, d) : ℚ × ℚ)).map Prod.fst = List.replicate n c := by
      simp
    have hmap2 : (List.replicate n ((c, d) : ℚ × ℚ)).map Prod.snd = List.replicate n d := by
      simp
    refine ⟨?_, ?_, ?_⟩
    · rw [pearson_replicate]
      unfold rval
      norm_num
    · rw [pearson_replicate]
      unfold absGT
      norm_num
    · unfold mkCorrelation
      rw [List.length_replicate, if_pos (by omega), hmap1, hmap2, pearson_replicate]
      have : absGT ⟨0, 0⟩ (3 / 10) = false := by
        unfold absGT
        norm_num
      simp [this]

/-- Witness for `pearson_zero_denominator`: a concrete zero-variance
pair of length 4 and a constant pair. -/
theorem pearson_zero_denominator_witness :
    rval (calculatePearsonCorrelation [(5 : ℚ), 5, 5, 5] [1, 2, 3, 4]) = 0 ∧
    rval (calculatePearsonCorrelation (List.replicate 4 (2 : ℚ)) (List.replicate 4 (3 : ℚ))) = 0 ∧
    mkCorrelation "sleep" "stress" (List.replicate 4 ((2 : ℚ), (3 : ℚ))) = none := by
  have hd : (calculatePearsonCorrelation [(5 : ℚ), 5, 5, 5] [1, 2, 3, 4]).dsq = 0 := by
    norm_num [calculatePearsonCorrelation]
  refine ⟨pearson_zero_denominator.1 _ _ ?_,
    (pearson_zero_denominator.2 2 3 4 "sleep" "stress" (by norm_num)).1,
    (pearson_zero_denominator.2 2 3 4 "sleep" "stress" (by norm_num)).2.2⟩
  rw [hd]
  norm_num

/-- C10: a probed field holding the number `0` is treated exactly like
an absent field — removing such a field from the payload does not
change the extraction result; an entry whose payload extracts to no
value leaves the per-day average unchanged (it is dropped, not counted
as `0`); a day whose payload for a type extracts to no value
contributes no correlation sample for any pair using that type in
either position; and a payload whose only numeric signal is `0` yields
the no-value marker. -/
theorem zero_field_treated_as_absent :
    (∀ (fields : List (String × JSVal)) (f : String),
        jsGet fields f = some (.num 0) →
        extractNumericValue (.obj fields) =
          extractNumericValue (.obj (fields.filter (fun p => p.1 != f)))) ∧
    (∀ (entries : List HealthRecord) (e : HealthRecord),
        extractNumericValue (effData e) = none →
        calculateAverageValue (entries ++ [e]) = calculateAverageValue entries) ∧
    (∀ (day : List (String × JSVal)) (t1 t2 : String),
        (jsGet day t1).bind extractNumericValue = none →
        daySample day t1 t2 = none ∧ daySample day t2 t1 = none) ∧
    extractNumericValue (.obj [("value", .num 0)]) = none := by
  refine ⟨?_, ?_, ?_, rfl⟩
  · intro fields f hf
    simp only [extractNumericValue]
    apply findSome?_congr_fn
    intro g _
    by_cases hg : g = f
    · subst hg
      rw [hf, jsGet_filter_self]
      simp
    · rw [jsGet_filter_ne fields f g hg]
  · intro entries e he
    unfold calculateAverageValue
    have hfm : (entries ++ [e]).filterMap (fun entry => extractNumericValue (effData entry)) =
        entries.filterMap (fun entry => extractNumericValue (effData entry)) := by
      rw [List.filterMap_append]
      simp [List.filterMap_cons, he]
    rw [hfm]
    rcases entries with _ | ⟨e0, rest⟩
    · simp [he]
    · simp only [List.length_append, List.length_cons]
      norm_num
  · intro day t1 t2 hb
    constructor
    · unfold daySample
      cases hg1 : jsGet day t1 with
      | none => rfl
      | some v1 =>
          rw [hg1] at hb
          have hb1 : extractNumericValue v1 = none := hb
          cases hg2 : jsGet day t2 with
          | none => rfl
          | some v2 => simp [hb1]
    · unfold daySample
      cases hg2 : jsGet day t2 with
      | none => rfl
      | some v2 =>
          cases hg1 : jsGet day t1 with
          | none => rfl
          | some v1 =>
              rw [hg1] at hb
              have hb1 : extractNumericValue v1 = none := hb
              simp only [hb1]
              cases hx : extractNumericValue v2 <;> simp

/-- Witness for `zero_field_treated_as_absent` at concrete inputs: a
payload with a zero `value` field and a later `level` field extracts
the same with and without the zero field; appending a zero-only record
leaves an average unchanged; a day with a zero-only `sleep` payload
contributes no `sleep`/`stress` sample. -/
theorem zero_field_treated_as_absent_witness :
    extractNumericValue (.obj [("value", .num 0), ("level", .num 5)]) =
      extractNumericValue
        (.obj (([("value", .num 0), ("level", .num 5)] :
          List (String × JSVal)).filter (fun p => p.1 != "value"))) ∧
    calculateAverageValue
        ([⟨1, "2024-01-01", "sleep", .num 7, .null, none⟩] ++
          [⟨2, "2024-01-01", "sleep", .obj [("value", .num 0)], .null, none⟩]) =
      calculateAverageValue [⟨1, "2024-01-01", "sleep", .num 7, .null, none⟩] ∧
    daySample [("sleep", .obj [("value", .num 0)]), ("stress", .num 2)] "sleep" "stress" = none := by
  refine ⟨zero_field_treated_as_absent.1 _ "value" rfl,
    zero_field_treated_as_absent.2.1 _ _ rfl,
    (zero_field_treated_as_absent.2.2.1
      [("sleep", .obj [("value", .num 0)]), ("stress", .num 2)] "sleep" "stress" rfl).1⟩

end WellThread
